import Mathlib

/-!
Verification of the Travel Planner application (src/app.py).

The app is a Streamlit page: it reads a source and destination city, calls a
text-generation service through a prompt chain, and parses the returned
markdown-table text into a pandas DataFrame, two bar charts and a CSV export.

We embed the Python string pipeline shallowly: a Python string is a list of
characters (PyStr), str.split(sep) for a one-character separator is
splitOnChar, str.strip() is pyStrip, list slicing l[2:-1] is drop 2 followed
by dropLast, and l[1:-1] is drop 1 followed by dropLast.  Fallible library
calls (pd.DataFrame construction, which raises when the inferred column count
differs from the six supplied names) are modelled with Option.  Numeric
coercion (str.replace of the regex class of non-digit non-dot runs, then
pd.to_numeric with errors set to coerce) is modelled over rationals; NaN is
modelled as Option.none.  Unicode notes: the Python regex digit class also
matches non-ASCII decimal digits and Python strips a slightly larger
whitespace set than Char.isWhitespace; no claim exercises these characters.
-/

set_option maxRecDepth 40000

namespace TravelPlanner

/-- A Python string, modelled as its list of characters. -/
abbrev PyStr := List Char

/-- Characters from a Lean string literal, for concrete inputs. -/
def pyOfString (s : String) : PyStr := s.data

/-- Python str.split(c) for a single-character separator: splits at every
occurrence of c, keeping empty segments; an empty string yields one empty
segment, as in Python. -/
def splitOnChar (c : Char) : PyStr → List PyStr
  | [] => [[]]
  | a :: s =>
    if a = c then [] :: splitOnChar c s
    else
      match splitOnChar c s with
      | [] => [[a]]
      | h :: t => (a :: h) :: t

/-- Whitespace as stripped by Python str.strip (space, tab, CR, LF cover all
characters appearing in this development). -/
def isWS (c : Char) : Bool := c.isWhitespace

/-- Left part of Python str.strip. -/
def lstrip (s : PyStr) : PyStr := s.dropWhile isWS

/-- Right part of Python str.strip, written recursively so that inductive
proofs are structural. -/
def rstrip : PyStr → PyStr
  | [] => []
  | a :: s =>
    match rstrip s with
    | [] => if isWS a then [] else [a]
    | b :: r => a :: b :: r

/-- Python str.strip: trim whitespace from both ends. -/
def pyStrip (s : PyStr) : PyStr := rstrip (lstrip s)

/-- Joining a list of strings with a separator (used to build concrete
markdown tables in the theorems; inverse direction of splitOnChar). -/
def joinLines (sep : PyStr) : List PyStr → PyStr
  | [] => []
  | [x] => x
  | x :: y :: t => x ++ sep ++ joinLines sep (y :: t)

/-- Source line 69: table_data = recommendations.strip().split('\n')[2:-1]. -/
def table_data (recommendations : PyStr) : List PyStr :=
  ((splitOnChar '\n' (pyStrip recommendations)).drop 2).dropLast

/-- Source line 70, the per-line body of the comprehension:
row.strip().split('|')[1:-1]. -/
def splitRow (row : PyStr) : List PyStr :=
  ((splitOnChar '|' (pyStrip row)).drop 1).dropLast

/-- Source line 70: rows = [row.strip().split('|')[1:-1] for row in table_data]. -/
def rows (recommendations : PyStr) : List (List PyStr) :=
  (table_data recommendations).map splitRow

/-- The six column names passed to pd.DataFrame on source line 71. -/
def columns : List String :=
  ["Travel Type", "Price (Estimated)", "Time (Estimated)", "Description",
   "Comfort Level", "Directness"]

/-- A DataFrame cell: none models NaN (pandas pads short rows with NaN when
the inferred width matches the supplied column count). -/
abbrev Cell := Option PyStr

/-- Source line 71: pd.DataFrame(rows, columns=[six names]).  pandas infers
the width of a list-of-lists as the maximum row length, pads shorter rows
with NaN, and raises ValueError when the inferred width differs from the
number of supplied column names; an empty list of rows always succeeds and
yields an empty frame with the six columns.  Failure is modelled as none. -/
def mkDataFrame (rs : List (List PyStr)) : Option (List (List Cell)) :=
  if rs.isEmpty then some []
  else if rs.foldl (fun m r => max m r.length) 0 = 6 then
    some (rs.map fun r => r.map some ++ List.replicate (6 - r.length) none)
  else none

/-- A character kept by the regex replacement on source lines 74 and 75:
digits and the decimal point.  (The Python digit class also matches non-ASCII
decimal digits; no input in this development contains any.) -/
def isNumChar (c : Char) : Bool := c.isDigit || c == '.'

/-- Source lines 74 and 75: str.replace with the regex of one-or-more
non-digit non-dot characters and an empty replacement, i.e. every maximal
run of excluded characters is deleted. -/
def replaceNonNumRuns : PyStr → PyStr
  | [] => []
  | c :: cs =>
    if isNumChar c then c :: replaceNonNumRuns cs
    else replaceNonNumRuns (cs.dropWhile fun d => !(isNumChar d))
termination_by s => s.length
decreasing_by
  all_goals simp only [List.length_cons, Nat.lt_succ_iff]
  all_goals first
    | exact Nat.le_refl _
    | exact (List.dropWhile_suffix _).sublist.length_le

/-- Value of a string of decimal digits. -/
def digitsVal (s : PyStr) : Nat :=
  s.foldl (fun a c => 10 * a + (c.toNat - 48)) 0

/-- pd.to_numeric with errors set to coerce, restricted to strings of digits
and dots (the only strings reaching it after the regex replacement): the
string parses when it has at least one digit and at most one dot, and the
failure NaN is none. -/
def parseNumeric (s : PyStr) : Option ℚ :=
  if s.all isNumChar && s.any (fun c => c.isDigit) &&
      decide (s.count '.' ≤ 1) then
    some ((digitsVal (s.takeWhile fun c => c != '.') : ℚ) +
      (digitsVal ((s.dropWhile fun c => c != '.').drop 1) : ℚ) /
        (10 : ℚ) ^ ((s.dropWhile fun c => c != '.').drop 1).length)
  else none

/-- The coercion of source lines 74 and 75 applied to one cell: a NaN cell
stays NaN through both str.replace and to_numeric. -/
def coerceCell (c : Cell) : Option ℚ :=
  c.bind fun s => parseNumeric (replaceNonNumRuns s)

/-- One parsed travel option: the row of the coerced DataFrame.  String
cells are Cell because pandas may have padded them with NaN. -/
structure TravelOption where
  travelType : Cell
  price : Option ℚ
  time : Option ℚ
  description : Cell
  comfortLevel : Cell
  directness : Cell
deriving DecidableEq, Repr

/-- A DataFrame row after the Price and Time columns are coerced in place
(source lines 74 and 75). -/
def toRecord (r : List Cell) : TravelOption :=
  { travelType := r.getD 0 none
    price := coerceCell (r.getD 1 none)
    time := coerceCell (r.getD 2 none)
    description := r.getD 3 none
    comfortLevel := r.getD 4 none
    directness := r.getD 5 none }

/-- The record arising from a list of six plain string cells. -/
def recordOfCells (r : List PyStr) : TravelOption := toRecord (r.map some)

/-- The whole tabulation step (source lines 69 to 75): line selection, bar
splitting, DataFrame construction, and numeric coercion of the price and
time columns.  none models the except branch of the try block. -/
def tabulate (recommendations : PyStr) : Option (List TravelOption) :=
  (mkDataFrame (rows recommendations)).map (List.map toRecord)

/-- A well-formed markdown table row built from its cell texts: the cells
joined by bars, with a leading and a trailing bar. -/
def renderRow (r : List PyStr) : PyStr :=
  '|' :: (joinLines ['|'] r ++ ['|'])

/-- Result of travel_chain.run: LLMChain.run returns either a plain string
or a mapping carrying the reply under the text key (source line 49 handles
both shapes). -/
inductive RunOut where
  | strOut (s : PyStr)
  | dictOut (text : PyStr)
deriving DecidableEq

/-- The external generation call: it may raise (modelled as Except.error
carrying the display text of the exception). -/
abbrev RunFn := PyStr → PyStr → Except PyStr RunOut

/-- Source lines 46 to 51: run the chain, unwrap a dict reply, and convert
any exception into the displayable string built by the f-string
literal of line 51. -/
def get_travel_recommendations (run : RunFn) (source destination : PyStr) :
    PyStr :=
  match run source destination with
  | Except.ok (RunOut.strOut s) => s
  | Except.ok (RunOut.dictOut t) => t
  | Except.error e => pyOfString "An error occurred: " ++ e

/-- Observable outcome of one submit action (source lines 60 to 96):
either the pre-flight validation error of line 96, or the rendered result
(charts and CSV built from the tabulated records), or the error message of
line 93 when the tabulation block raises. -/
inductive AppOutcome where
  | validationError
  | rendered (records : List TravelOption)
  | tabulationError
deriving DecidableEq

/-- Source lines 60 to 96: the submit handler.  Python truthiness of a
string is non-emptiness, so the condition of line 61 is that both fields
are non-empty. -/
def appSubmit (run : RunFn) (source destination : PyStr) : AppOutcome :=
  if source ≠ [] ∧ destination ≠ [] then
    match tabulate (get_travel_recommendations run source destination) with
    | some records => AppOutcome.rendered records
    | none => AppOutcome.tabulationError
  else AppOutcome.validationError

/-- The header line written by df.to_csv with index=False (source line 89):
the six column names joined by commas, none of which needs CSV quoting. -/
def csvHeader : PyStr :=
  pyOfString
    "Travel Type,Price (Estimated),Time (Estimated),Description,Comfort Level,Directness"

/-- Minimal CSV quoting as performed by to_csv: a field containing a comma,
a double quote, or a line break is wrapped in double quotes with inner
quotes doubled. -/
def csvQuote (s : PyStr) : PyStr :=
  if s.any (fun c => c == ',' || c == '"' || c == '\n' || c == '\r') then
    '"' :: s.foldr (fun c acc =>
      (if c == '"' then ['"', '"'] else [c]) ++ acc) [] ++ ['"']
  else s

/-- A string cell in the CSV: NaN renders as the empty field. -/
def renderCell (c : Cell) : PyStr :=
  match c with
  | none => []
  | some s => csvQuote s

/-- A coerced numeric cell in the CSV: NaN renders as the empty field.  The
exact numeral formatting pandas chooses (int64 versus float64 column dtype)
is abstracted by printing the rational value; no claim inspects the text of
a numeric data cell. -/
def renderNum (q : Option ℚ) : PyStr :=
  match q with
  | none => []
  | some v => (toString v).data

/-- One data line of the CSV. -/
def renderRecord (t : TravelOption) : PyStr :=
  joinLines [','] [renderCell t.travelType, renderNum t.price,
    renderNum t.time, renderCell t.description, renderCell t.comfortLevel,
    renderCell t.directness]

/-- Source lines 88 to 89: df.to_csv(buffer, index=False) — the header line,
then one line per record, each line terminated by a newline. -/
def to_csv (records : List TravelOption) : PyStr :=
  joinLines ['\n'] (csvHeader :: records.map renderRecord) ++ ['\n']

/-- Concrete response for the witnesses: a header line, a separator line,
five well-formed six-column data rows, and one trailing line. -/
def exampleTable : PyStr :=
  pyOfString
    "h\ns\n|a|1|2|d|4|D|\n|b|1|2|d|4|D|\n|c|1|2|d|4|D|\n|d|1|2|d|4|D|\n|e|1|2|d|4|D|\nend"

/-- The cell texts of the five data rows of exampleTable. -/
def exampleCells : List (List PyStr) :=
  [["a", "1", "2", "d", "4", "D"], ["b", "1", "2", "d", "4", "D"],
   ["c", "1", "2", "d", "4", "D"], ["d", "1", "2", "d", "4", "D"],
   ["e", "1", "2", "d", "4", "D"]].map (List.map pyOfString)

/-- Concrete response for the C1 counterexample: a well-formed markdown
table of exactly a header line, a separator line, and five data rows with
six bar-delimited columns each — and nothing after the table. -/
def exampleBareTable : PyStr :=
  pyOfString
    "|Travel Type|Price (Estimated)|Time (Estimated)|Description|Comfort Level|Directness|\n|---|---|---|---|---|---|\n|Cab/Taxi|1200|2.5|cab|4|Direct|\n|Train|300|3.5|rail|3|Direct|\n|Bus|250|4|bus|2|Indirect|\n|Flight|3000|1.5|air|5|Direct|\n|Ola/Uber|1100|2.5|cab|4|Direct|"

/-- Cell texts with surrounding spaces, for the C10 witness. -/
def exampleSpacedCells : List PyStr :=
  [" Cab/Taxi ", " ₹1200 ", " 2.5 hrs ", " comfy ride ", " 4 ",
   " Direct "].map pyOfString

/-! Lemmas about splitOnChar, stripping, and their interaction. -/

theorem split_ne_nil (c : Char) : ∀ (s : PyStr), splitOnChar c s ≠ []
  | [] => by simp [splitOnChar]
  | a :: s => by
    have ih := split_ne_nil c s
    by_cases hac : a = c
    · simp [splitOnChar, hac]
    · cases hsp : splitOnChar c s with
      | nil => exact absurd hsp ih
      | cons h t => simp [splitOnChar, hac, hsp]

theorem split_of_not_mem {c : Char} :
    ∀ {s : PyStr}, (∀ a ∈ s, a ≠ c) → splitOnChar c s = [s]
  | [], _ => rfl
  | a :: s, h => by
    have ha : a ≠ c := h a (List.mem_cons_self a s)
    have ih := split_of_not_mem (s := s) fun x hx => h x (List.mem_cons_of_mem a hx)
    simp [splitOnChar, ha, ih]

theorem split_single {c : Char} :
    ∀ {s x : PyStr}, splitOnChar c s = [x] → s = x
  | [], x, h => by simpa [splitOnChar] using h
  | a :: s, x, h => by
    by_cases hac : a = c
    · rw [show splitOnChar c (a :: s) = [] :: splitOnChar c s by
        simp [splitOnChar, hac]] at h
      exact absurd (List.cons.injEq .. ▸ h).2 (split_ne_nil c s)
    · cases hsp : splitOnChar c s with
      | nil => exact absurd hsp (split_ne_nil c s)
      | cons h0 t =>
        rw [show splitOnChar c (a :: s) = (a :: h0) :: t by
          simp [splitOnChar, hac, hsp]] at h
        obtain ⟨h1, h2⟩ := List.cons.injEq .. ▸ h
        subst h2
        rw [← h1, split_single hsp]

theorem split_append_cons {c : Char} :
    ∀ {x : PyStr} (r : PyStr), (∀ a ∈ x, a ≠ c) →
      splitOnChar c (x ++ c :: r) = x :: splitOnChar c r
  | [], r, _ => by simp [splitOnChar]
  | a :: x, r, h => by
    have ha : a ≠ c := h a (List.mem_cons_self a x)
    have ih := split_append_cons (x := x) r fun y hy =>
      h y (List.mem_cons_of_mem a hy)
    simp [splitOnChar, ha, ih]

theorem split_join {c : Char} :
    ∀ {l : List PyStr}, l ≠ [] → (∀ p ∈ l, ∀ a ∈ p, a ≠ c) →
      splitOnChar c (joinLines [c] l) = l
  | [], hne, _ => absurd rfl hne
  | [x], _, h => by
    simpa [joinLines] using split_of_not_mem (h x (List.mem_singleton_self x))
  | x :: y :: t, _, h => by
    have hx : ∀ a ∈ x, a ≠ c := h x (List.mem_cons_self ..)
    have ih := split_join (l := y :: t) (by simp) fun p hp =>
      h p (List.mem_cons_of_mem x hp)
    calc splitOnChar c (joinLines [c] (x :: y :: t))
        = splitOnChar c (x ++ c :: joinLines [c] (y :: t)) := by
          simp [joinLines]
      _ = x :: splitOnChar c (joinLines [c] (y :: t)) := split_append_cons _ hx
      _ = x :: y :: t := by rw [ih]

theorem split_join_concat {c : Char} :
    ∀ {l : List PyStr}, l ≠ [] → (∀ p ∈ l, ∀ a ∈ p, a ≠ c) →
      splitOnChar c (joinLines [c] l ++ [c]) = l ++ [[]]
  | [], hne, _ => absurd rfl hne
  | [x], _, h => by
    have hx := h x (List.mem_singleton_self x)
    rw [show joinLines [c] [x] ++ [c] = x ++ c :: [] from rfl,
      split_append_cons [] hx]
    rfl
  | x :: y :: t, _, h => by
    have hx : ∀ a ∈ x, a ≠ c := h x (List.mem_cons_self ..)
    have ih := split_join_concat (l := y :: t) (by simp) fun p hp =>
      h p (List.mem_cons_of_mem x hp)
    calc splitOnChar c (joinLines [c] (x :: y :: t) ++ [c])
        = splitOnChar c (x ++ c :: (joinLines [c] (y :: t) ++ [c])) := by
          simp [joinLines]
      _ = x :: splitOnChar c (joinLines [c] (y :: t) ++ [c]) :=
          split_append_cons _ hx
      _ = x :: ((y :: t) ++ [[]]) := by rw [ih]
      _ = (x :: y :: t) ++ [[]] := rfl

theorem split_dropWhile {c : Char} (p : Char → Bool)
    (hp : ∀ a, p a = true → a ≠ c) :
    ∀ (s : PyStr), ∃ h t, splitOnChar c s = h :: t ∧
      splitOnChar c (s.dropWhile p) = h.dropWhile p :: t
  | [] => ⟨[], [], rfl, rfl⟩
  | a :: s => by
    obtain ⟨h, t, hs, hd⟩ := split_dropWhile p hp s
    by_cases hpa : p a = true
    · have hac : a ≠ c := hp a hpa
      refine ⟨a :: h, t, ?_, ?_⟩
      · simp [splitOnChar, hac, hs]
      · simp [List.dropWhile_cons, hpa, hd]
    · by_cases hac : a = c
      · subst hac
        refine ⟨[], h :: t, ?_, ?_⟩
        · simp [splitOnChar, hs]
        · simp [List.dropWhile_cons, hpa, splitOnChar, hs]
      · refine ⟨a :: h, t, ?_, ?_⟩
        · simp [splitOnChar, hac, hs]
        · simp [List.dropWhile_cons, hpa, splitOnChar, hac, hs]

theorem split_rstrip {c : Char} (hc : isWS c = false) :
    ∀ (s : PyStr), ∃ init l0, splitOnChar c s = init ++ [l0] ∧
      splitOnChar c (rstrip s) = init ++ [rstrip l0]
  | [] => ⟨[], [], rfl, rfl⟩
  | a :: s => by
    obtain ⟨init, l0, hs, hr⟩ := split_rstrip hc s
    cases hrs : rstrip s with
    | nil =>
      rw [hrs] at hr
      have hinit : init = [] ∧ rstrip l0 = [] := by
        cases init with
        | nil => simpa [splitOnChar] using hr
        | cons i is =>
          rw [show splitOnChar c [] = [[]] from rfl] at hr
          exact absurd (congrArg List.length hr) (by simp)
      obtain ⟨hi, hl0⟩ := hinit
      subst hi
      have hsl : splitOnChar c s = [l0] := hs
      by_cases hac : a = c
      · subst hac
        refine ⟨[[]], l0, ?_, ?_⟩
        · simp [splitOnChar, hsl]
        · simp [rstrip, hrs, hc, splitOnChar, hl0]
      · by_cases hwa : isWS a = true
        · refine ⟨[], a :: l0, ?_, ?_⟩
          · simp [splitOnChar, hac, hsl]
          · simp [rstrip, hrs, hwa, splitOnChar, hl0]
        · refine ⟨[], a :: l0, ?_, ?_⟩
          · simp [splitOnChar, hac, hsl]
          · simp [rstrip, hrs, hwa, splitOnChar, hac, hl0]
    | cons b r =>
      have hstep : rstrip (a :: s) = a :: rstrip s := by
        simp [rstrip, hrs]
      by_cases hac : a = c
      · refine ⟨[] :: init, l0, ?_, ?_⟩
        · simp [splitOnChar, hac, hs]
        · rw [hstep]
          simp [splitOnChar, hac, hr]
      · cases init with
        | nil =>
          have hsl : splitOnChar c s = [l0] := hs
          have hseq : s = l0 := split_single hsl
          have hrl : splitOnChar c (rstrip s) = [rstrip l0] := hr
          refine ⟨[], a :: l0, ?_, ?_⟩
          · simp [splitOnChar, hac, hsl]
          · have hra : rstrip (a :: l0) = a :: rstrip l0 := by
              rw [← hseq, hstep]
            rw [hstep, hra]
            have hrne : rstrip s = rstrip l0 := by rw [hseq]
            simp [splitOnChar, hac, hrl]
        | cons i is =>
          refine ⟨(a :: i) :: is, l0, ?_, ?_⟩
          · simp [splitOnChar, hac, hs]
          · rw [hstep]
            simp [splitOnChar, hac, hr]

theorem inner_strip {c : Char} (hc : isWS c = false) (s : PyStr) :
    ((splitOnChar c (pyStrip s)).drop 1).dropLast =
      ((splitOnChar c s).drop 1).dropLast := by
  obtain ⟨h, t, hs, hl⟩ := split_dropWhile (c := c) isWS
    (fun a ha he => by rw [he, hc] at ha; exact Bool.noConfusion ha) s
  obtain ⟨init, l0, hls, hrs⟩ := split_rstrip hc (lstrip s)
  have hcomb : init ++ [l0] = h.dropWhile isWS :: t := by
    rw [← hls]
    exact hl
  rw [show pyStrip s = rstrip (lstrip s) from rfl, hrs, hs]
  cases init with
  | nil =>
    have ht : List.dropWhile isWS h = l0 ∧ t = [] := by simpa using hcomb.symm
    simp [ht.2]
  | cons i is =>
    have ht : t = is ++ [l0] := by
      have := (List.cons.injEq .. ▸ hcomb).2
      exact this.symm
    simp [ht, List.dropLast_concat]

theorem splitRow_inner (row : PyStr) :
    splitRow row = ((splitOnChar '|' row).drop 1).dropLast :=
  inner_strip (by decide) row

theorem splitRow_render {r : List PyStr} (hne : r ≠ [])
    (h : ∀ p ∈ r, ∀ a ∈ p, a ≠ '|') : splitRow (renderRow r) = r := by
  rw [splitRow_inner, renderRow]
  rw [show splitOnChar '|' ('|' :: (joinLines ['|'] r ++ ['|'])) =
      [] :: splitOnChar '|' (joinLines ['|'] r ++ ['|']) by simp [splitOnChar]]
  rw [split_join_concat hne h]
  simp [List.dropLast_concat]

theorem mem_of_mem_rstrip {a : Char} :
    ∀ {s : PyStr}, a ∈ rstrip s → a ∈ s
  | [], h => by simp [rstrip] at h
  | b :: s, h => by
    cases hrs : rstrip s with
    | nil =>
      by_cases hwb : isWS b = true
      · rw [show rstrip (b :: s) = [] by simp [rstrip, hrs, hwb]] at h
        exact absurd h (List.not_mem_nil a)
      · rw [show rstrip (b :: s) = [b] by simp [rstrip, hrs, hwb]] at h
        rw [List.mem_singleton.mp h]
        exact List.mem_cons_self b s
    | cons x r =>
      rw [show rstrip (b :: s) = b :: rstrip s by simp [rstrip, hrs]] at h
      rcases List.mem_cons.mp h with hb | hm
      · exact hb ▸ List.mem_cons_self b s
      · exact List.mem_cons_of_mem b (mem_of_mem_rstrip hm)

theorem mem_of_mem_pyStrip {a : Char} {s : PyStr} (h : a ∈ pyStrip s) :
    a ∈ s :=
  (List.dropWhile_suffix isWS).sublist.subset (mem_of_mem_rstrip h)

theorem foldl_max_of_const :
    ∀ {l : List (List PyStr)}, l ≠ [] → (∀ r ∈ l, r.length = 6) →
      ∀ (init : ℕ), l.foldl (fun m r => max m r.length) init = max init 6
  | [], hne, _, _ => absurd rfl hne
  | [x], _, h, init => by
    simp [List.foldl, h x (List.mem_singleton_self x)]
  | x :: y :: t, _, h, init => by
    have ih := foldl_max_of_const (l := y :: t) (by simp)
      (fun r hr => h r (List.mem_cons_of_mem x hr)) (max init x.length)
    rw [List.foldl_cons, ih, h x (List.mem_cons_self ..), Nat.max_assoc,
      Nat.max_self]

theorem mkDataFrame_of_cells {rs : List (List PyStr)} (hne : rs ≠ [])
    (h : ∀ r ∈ rs, r.length = 6) :
    mkDataFrame rs = some (rs.map (List.map some)) := by
  rw [mkDataFrame, if_neg (by simpa using hne),
    if_pos (by rw [foldl_max_of_const hne h]; rfl)]
  congr 1
  refine List.map_congr_left fun r hr => ?_
  rw [h r hr]
  simp

theorem tabulate_of_short_input {resp : PyStr}
    (h : (splitOnChar '\n' (pyStrip resp)).length < 3) :
    tabulate resp = some [] := by
  have hdrop : (splitOnChar '\n' (pyStrip resp)).drop 2 = [] :=
    List.drop_of_length_le (by omega)
  simp [tabulate, rows, table_data, hdrop, mkDataFrame]

theorem filter_dropWhile_not (p : Char → Bool) :
    ∀ (l : PyStr), (l.dropWhile fun d => !(p d)).filter p = l.filter p
  | [] => rfl
  | a :: l => by
    by_cases hpa : p a = true
    · simp [List.dropWhile_cons, hpa]
    · simp [List.dropWhile_cons, hpa, filter_dropWhile_not p l]

theorem replaceNonNumRuns_eq_filter (s : PyStr) :
    replaceNonNumRuns s = s.filter isNumChar := by
  induction s using replaceNonNumRuns.induct with
  | case1 => rw [replaceNonNumRuns.eq_def]; rfl
  | case2 c cs hc ih =>
    have hstep : replaceNonNumRuns (c :: cs) = c :: replaceNonNumRuns cs := by
      rw [replaceNonNumRuns.eq_def]
      exact if_pos hc
    rw [hstep, ih, List.filter_cons_of_pos hc]
  | case3 c cs hc ih =>
    have hstep : replaceNonNumRuns (c :: cs) =
        replaceNonNumRuns (cs.dropWhile fun d => !(isNumChar d)) := by
      rw [replaceNonNumRuns.eq_def]
      exact if_neg hc
    rw [hstep, ih, List.filter_cons_of_neg (by simpa using hc),
      filter_dropWhile_not]

theorem parseNumeric_eval_pos (s : PyStr) (n f k : ℕ)
    (hcond : (s.all isNumChar && s.any (fun c => c.isDigit) &&
      decide (s.count '.' ≤ 1)) = true)
    (hip : digitsVal (s.takeWhile fun c => c != '.') = n)
    (hfp : digitsVal ((s.dropWhile fun c => c != '.').drop 1) = f)
    (hk : ((s.dropWhile fun c => c != '.').drop 1).length = k) :
    parseNumeric s = some ((n : ℚ) + (f : ℚ) / (10 : ℚ) ^ k) := by
  rw [parseNumeric, if_pos hcond, hip, hfp, hk]

theorem coerceCell_some (s : PyStr) :
    coerceCell (some s) = parseNumeric (s.filter isNumChar) := by
  show parseNumeric (replaceNonNumRuns s) = _
  rw [replaceNonNumRuns_eq_filter]

/-! Theorems settling the claims. -/

/-- Claim C1, counterexample: on a raw response that is exactly a
well-formed markdown table — header line, separator line, and five data
rows of six bar-delimited columns, with nothing after the table — the
Tabulator produces 4 records, not 5: the positional slice [2:-1] discards
the final line even when that line is the fifth data row. -/
theorem claim_C1_cex :
    (tabulate exampleBareTable).map List.length = some 4 := by decide

/-- Claim C1 (amended): for every raw response whose stripped form consists
of a header line, a separator line, exactly five well-formed data rows of
six bar-delimited columns, and one further trailing line, the Tabulator
produces exactly five records carrying the six cells of each row, in the
same order as the input rows, under the six named columns. -/
theorem claim_C1 (resp header sep trail : PyStr)
    (cellRows : List (List PyStr))
    (hlines : splitOnChar '\n' (pyStrip resp) =
      header :: sep :: (cellRows.map renderRow ++ [trail]))
    (hlen : cellRows.length = 5)
    (hcells : ∀ r ∈ cellRows, r.length = 6 ∧ ∀ cell ∈ r, ∀ a ∈ cell, a ≠ '|') :
    tabulate resp = some (cellRows.map recordOfCells) ∧
      (cellRows.map recordOfCells).length = 5 ∧ columns.length = 6 := by
  have htd : table_data resp = cellRows.map renderRow := by
    rw [table_data, hlines]
    simp [List.dropLast_concat]
  have hne : cellRows ≠ [] := by
    intro h0
    rw [h0] at hlen
    exact absurd hlen (by decide)
  have hrows : rows resp = cellRows := by
    rw [rows, htd, List.map_map]
    have : ∀ r ∈ cellRows, (splitRow ∘ renderRow) r = id r := fun r hr =>
      splitRow_render (by
        intro h0
        rw [h0] at hr
        exact absurd ((hcells [] hr).1) (by decide)) (hcells r hr).2
    rw [List.map_congr_left this, List.map_id]
  refine ⟨?_, by rw [List.length_map, hlen], by decide⟩
  rw [tabulate, hrows, mkDataFrame_of_cells hne (fun r hr => (hcells r hr).1)]
  rw [Option.map_some', List.map_map]
  rfl

/-- Claim C1 witness: the amended statement applied to a concrete
well-formed table followed by a trailing line. -/
theorem claim_C1_witness :
    splitOnChar '\n' (pyStrip exampleTable) =
      pyOfString "h" :: pyOfString "s" ::
        (exampleCells.map renderRow ++ [pyOfString "end"]) ∧
    exampleCells.length = 5 ∧
    tabulate exampleTable = some (exampleCells.map recordOfCells) :=
  ⟨by decide, by decide,
    (claim_C1 exampleTable (pyOfString "h") (pyOfString "s")
      (pyOfString "end") exampleCells (by decide) (by decide) (by decide)).1⟩

/-- Claim C2, counterexample: a one-line response (fewer than 3 lines) does
not reach the tabulation-failure path; the DataFrame construction succeeds
on zero rows, and the submit handler renders the empty record set — empty
charts and a CSV download — instead of showing the processing-error
message. -/
theorem claim_C2_cex :
    appSubmit (fun _ _ => Except.ok (RunOut.strOut (pyOfString "hi")))
        (pyOfString "a") (pyOfString "b") = AppOutcome.rendered [] ∧
      (splitOnChar '\n' (pyStrip (pyOfString "hi"))).length < 3 := by
  exact ⟨by decide, by decide⟩

/-- Claim C2 (amended): a raw response whose stripped form has fewer than 3
lines yields zero selected rows, and tabulation then succeeds with an empty
record set: no unhandled fault, but also no error message — the app renders
empty charts and a header-only CSV (a silent empty result). -/
theorem claim_C2 (resp : PyStr)
    (h : (splitOnChar '\n' (pyStrip resp)).length < 3) :
    tabulate resp = some [] ∧
      to_csv [] = csvHeader ++ ['\n'] ∧
      ∀ (run : RunFn) (source destination : PyStr), source ≠ [] →
        destination ≠ [] →
        get_travel_recommendations run source destination = resp →
        appSubmit run source destination = AppOutcome.rendered [] := by
  refine ⟨tabulate_of_short_input h, rfl, fun run s d hs hd hg => ?_⟩
  rw [appSubmit, if_pos ⟨hs, hd⟩, hg, tabulate_of_short_input h]

/-- Claim C2 witness: the amended statement at the one-line response. -/
theorem claim_C2_witness :
    (splitOnChar '\n' (pyStrip (pyOfString "hi"))).length < 3 ∧
      tabulate (pyOfString "hi") = some [] ∧
      appSubmit (fun _ _ => Except.ok (RunOut.strOut (pyOfString "hi")))
        (pyOfString "a") (pyOfString "b") = AppOutcome.rendered [] :=
  ⟨by decide, (claim_C2 (pyOfString "hi") (by decide)).1,
    (claim_C2 (pyOfString "hi") (by decide)).2.2
      (fun _ _ => Except.ok (RunOut.strOut (pyOfString "hi")))
      (pyOfString "a") (pyOfString "b") (by decide) (by decide) rfl⟩

/-- Claim C3: the price and time coercion deletes every character that is
not a digit or a decimal point (the regex replacement of runs equals the
character filter) and then parses, giving a missing value rather than an
exception on failure; on the quoted inputs it maps the rupee amount to
1200, the slash text to a missing value, and the hours text to 5/2. -/
theorem claim_C3 :
    (∀ s : PyStr, replaceNonNumRuns s = s.filter isNumChar) ∧
      coerceCell (some (pyOfString "₹1200")) = some 1200 ∧
      coerceCell (some (pyOfString "N/A")) = none ∧
      coerceCell (some (pyOfString "2.5 hrs")) = some (5 / 2 : ℚ) := by
  refine ⟨replaceNonNumRuns_eq_filter, ?_, ?_, ?_⟩
  · rw [coerceCell_some,
      show List.filter isNumChar (pyOfString "₹1200") = pyOfString "1200"
        from by decide,
      parseNumeric_eval_pos (pyOfString "1200") 1200 0 0 (by decide)
        (by decide) (by decide) (by decide)]
    norm_num
  · rw [coerceCell_some]
    decide
  · rw [coerceCell_some,
      show List.filter isNumChar (pyOfString "2.5 hrs") = pyOfString "2.5"
        from by decide,
      parseNumeric_eval_pos (pyOfString "2.5") 2 5 1 (by decide)
        (by decide) (by decide) (by decide)]
    norm_num

/-- Claim C4, counterexample: on a response beginning with a newline, the
line-selection step does not discard the first two lines of the response —
the whole response is whitespace-stripped first, so the discarded lines are
counted on the stripped text, and the selected rows differ from the
claimed ones. -/
theorem claim_C4_cex :
    table_data (pyOfString "\nh\ns\nr1\nr2") ≠
      ((splitOnChar '\n' (pyOfString "\nh\ns\nr1\nr2")).drop 2).dropLast := by
  decide

/-- Claim C4 (amended): the line-selection step strips surrounding
whitespace from the raw response, then splits on newlines and discards
exactly the first two lines and the final line; the row-splitting step is
as claimed: splitting the line on the bar delimiter and dropping the first
and last segments (the per-line strip performed by the code provably never
changes the kept segments, since stripped characters are whitespace and
cannot be bars). -/
theorem claim_C4 :
    (∀ resp : PyStr, table_data resp =
      ((splitOnChar '\n' (pyStrip resp)).drop 2).dropLast) ∧
      ∀ line : PyStr, splitRow line =
        ((splitOnChar '|' line).drop 1).dropLast :=
  ⟨fun _ => rfl, splitRow_inner⟩

/-- Claim C5: whenever tabulation succeeds, the exported CSV starts with
the exact header row of the six column names joined by commas. -/
theorem claim_C5 (resp : PyStr) (records : List TravelOption)
    (_h : tabulate resp = some records) :
    (to_csv records).take csvHeader.length = csvHeader ∧
      csvHeader = joinLines [','] (columns.map String.data) := by
  refine ⟨?_, by decide⟩
  rw [to_csv]
  cases hl : records.map renderRecord with
  | nil => simp [joinLines, List.take_left]
  | cons x xs =>
    rw [show joinLines ['\n'] (csvHeader :: x :: xs) =
        csvHeader ++ ('\n' :: joinLines ['\n'] (x :: xs)) by
      simp [joinLines]]
    rw [List.append_assoc]
    exact List.take_left ..

/-- Claim C5 witness: a successfully tabulated concrete response. -/
theorem claim_C5_witness :
    tabulate exampleTable = some (exampleCells.map recordOfCells) ∧
      (to_csv (exampleCells.map recordOfCells)).take csvHeader.length =
        csvHeader :=
  ⟨(claim_C1 exampleTable (pyOfString "h") (pyOfString "s")
      (pyOfString "end") exampleCells (by decide) (by decide) (by decide)).1,
    (claim_C5 exampleTable (exampleCells.map recordOfCells)
      (claim_C1 exampleTable (pyOfString "h") (pyOfString "s")
        (pyOfString "end") exampleCells (by decide) (by decide)
        (by decide)).1).1⟩

/-- Claim C6: when the source or the destination field is empty, the
submit handler reports the validation error, and its outcome does not
depend on the generation function — no network call is made. -/
theorem claim_C6 (run run2 : RunFn) (source destination : PyStr)
    (h : source = [] ∨ destination = []) :
    appSubmit run source destination = AppOutcome.validationError ∧
      appSubmit run source destination = appSubmit run2 source destination := by
  have hneg : ¬(source ≠ [] ∧ destination ≠ []) := by
    rcases h with h | h <;> simp [h]
  rw [appSubmit, appSubmit, if_neg hneg, if_neg hneg]
  exact ⟨rfl, rfl⟩

/-- Claim C6 witness: empty source with two different generation
functions. -/
theorem claim_C6_witness :
    ((pyOfString "" : PyStr) = [] ∨ (pyOfString "Pune" : PyStr) = []) ∧
      appSubmit (fun _ _ => Except.ok (RunOut.strOut (pyOfString "hi")))
        (pyOfString "") (pyOfString "Pune") = AppOutcome.validationError :=
  ⟨Or.inl rfl,
    (claim_C6 (fun _ _ => Except.ok (RunOut.strOut (pyOfString "hi")))
      (fun _ _ => Except.error (pyOfString "down")) (pyOfString "")
      (pyOfString "Pune") (Or.inl rfl)).1⟩

/-- Claim C7: the Composer catches a failing generation call and returns
the displayable error string made of the fixed text followed by the cause,
and on a successful call returning a string it returns that raw string. -/
theorem claim_C7 (run : RunFn) (source destination e r : PyStr) :
    (run source destination = Except.error e →
      get_travel_recommendations run source destination =
        pyOfString "An error occurred: " ++ e) ∧
      (run source destination = Except.ok (RunOut.strOut r) →
        get_travel_recommendations run source destination = r) := by
  constructor <;> intro h <;> rw [get_travel_recommendations, h]

/-- Claim C7 witness: a failing call and a succeeding call. -/
theorem claim_C7_witness :
    get_travel_recommendations
        (fun _ _ => Except.error (pyOfString "quota exceeded"))
        (pyOfString "Mumbai") (pyOfString "Pune") =
      pyOfString "An error occurred: " ++ pyOfString "quota exceeded" ∧
      get_travel_recommendations
        (fun _ _ => Except.ok (RunOut.strOut (pyOfString "| t |")))
        (pyOfString "Mumbai") (pyOfString "Pune") = pyOfString "| t |" :=
  ⟨(claim_C7 (fun _ _ => Except.error (pyOfString "quota exceeded"))
      (pyOfString "Mumbai") (pyOfString "Pune") (pyOfString "quota exceeded")
      []).1 rfl,
    (claim_C7 (fun _ _ => Except.ok (RunOut.strOut (pyOfString "| t |")))
      (pyOfString "Mumbai") (pyOfString "Pune") [] (pyOfString "| t |")).2
      rfl⟩

/-- Claim C8: the Tabulator is deterministic — in this embedding the whole
tabulation pipeline (line selection, row splitting, DataFrame construction
and numeric coercion) is a pure function of the raw text, so tabulating the
same text twice yields identical records; the source performs no stateful
or random step between lines 69 and 75. -/
theorem claim_C8 :
    ∀ resp : PyStr, tabulate resp = tabulate resp ∧ rows resp = rows resp :=
  fun _ => ⟨rfl, rfl⟩

/-- Claim C9: when the generation call fails, the submit handler still runs
the tabulation step on the returned error string, producing either a
rendered (possibly empty) table or the tabulation error — never a
suppressed downstream; in particular a cause without a newline gives a
single-line response, zero selected rows, and the rendered empty table with
its charts and CSV download. -/
theorem claim_C9 (run : RunFn) (source destination e : PyStr)
    (hs : source ≠ []) (hd : destination ≠ [])
    (hrun : run source destination = Except.error e) :
    appSubmit run source destination =
      (match tabulate (pyOfString "An error occurred: " ++ e) with
        | some records => AppOutcome.rendered records
        | none => AppOutcome.tabulationError) ∧
      ((∀ a ∈ e, a ≠ '\n') →
        appSubmit run source destination = AppOutcome.rendered []) := by
  have hg : get_travel_recommendations run source destination =
      pyOfString "An error occurred: " ++ e := by
    rw [get_travel_recommendations, hrun]
  constructor
  · rw [appSubmit, if_pos ⟨hs, hd⟩, hg]
  · intro hnl
    have hmem : ∀ a ∈ pyOfString "An error occurred: " ++ e, a ≠ '\n' := by
      intro a ha
      rcases List.mem_append.mp ha with h1 | h2
      · intro hEq
        subst hEq
        revert h1
        decide
      · exact hnl a h2
    have hone : splitOnChar '\n'
        (pyStrip (pyOfString "An error occurred: " ++ e)) =
        [pyStrip (pyOfString "An error occurred: " ++ e)] :=
      split_of_not_mem fun a ha => hmem a (mem_of_mem_pyStrip ha)
    have hshort : (splitOnChar '\n'
        (pyStrip (pyOfString "An error occurred: " ++ e))).length < 3 := by
      rw [hone]
      simp only [List.length_singleton]
      decide
    rw [appSubmit, if_pos ⟨hs, hd⟩, hg, tabulate_of_short_input hshort]

/-- Claim C9 witness: a failing generation call with a one-line cause. -/
theorem claim_C9_witness :
    (pyOfString "Mumbai" : PyStr) ≠ [] ∧
      appSubmit (fun _ _ => Except.error (pyOfString "boom"))
        (pyOfString "Mumbai") (pyOfString "Pune") = AppOutcome.rendered [] :=
  ⟨by decide,
    (claim_C9 (fun _ _ => Except.error (pyOfString "boom"))
      (pyOfString "Mumbai") (pyOfString "Pune") (pyOfString "boom")
      (by decide) (by decide) rfl).2 (by decide)⟩

/-- Claim C10: the six field values of a parsed row are not trimmed — for
any cell texts (bar-free), splitting the rendered markdown line returns the
cell texts verbatim, leading and trailing spaces included; only the line as
a whole is stripped before the split, which cannot touch the kept
segments. -/
theorem claim_C10 (cells : List PyStr) (hne : cells ≠ [])
    (h : ∀ p ∈ cells, ∀ a ∈ p, a ≠ '|') :
    splitRow (renderRow cells) = cells :=
  splitRow_render hne h

/-- Claim C10 witness: cells whose values carry surrounding spaces come
back with the spaces preserved. -/
theorem claim_C10_witness :
    exampleSpacedCells ≠ [] ∧
      splitRow (renderRow exampleSpacedCells) = exampleSpacedCells :=
  ⟨by decide, claim_C10 exampleSpacedCells (by decide) (by decide)⟩

end TravelPlanner
